import Mathlib

/-!
Verification of the ytsaver download server (`src/server.py`) against its
specification.  Python strings are modelled as `List Char`; the temp-file
registry (`temp_files`, a Python set) as a `Finset`; the filesystem as an
association list mapping each existing path to its size and creation time.
Deletion failures (`os.remove` raising) are modelled by a Boolean oracle.
The display-only `size_formatted` field of `/video-info` is not modelled.
-/

namespace YtSaver

/-- A filesystem path, as a list of characters. -/
abbrev Path := List Char

/-! ## Filename sanitizer (`server.py` lines 190-200) -/

/-- Python `str.isalnum`, modelled on the ASCII range (codepoints of
`A`-`Z`, `a`-`z`, `0`-`9`).  Python also accepts non-ASCII Unicode
alphanumerics, so the embedding is faithful for ASCII titles only and the
sanitizer theorem carries an ASCII hypothesis. -/
def pyIsAlnum (c : Char) : Bool :=
  (65 ≤ c.toNat && c.toNat ≤ 90) || (97 ≤ c.toNat && c.toNat ≤ 122) ||
  (48 ≤ c.toNat && c.toNat ≤ 57)

/-- The generator-expression filter of line 195:
`c.isalnum() or c in (' ', '-', '_')`. -/
def keepChar (c : Char) : Bool :=
  pyIsAlnum c || c = ' ' || c = '-' || c = '_'

/-- The whitespace characters stripped by Python `str.rstrip()`. -/
def isPyWhite (c : Char) : Bool :=
  c = ' ' || c = '\t' || c = '\n' || c = '\r'

/-- Python `str.rstrip()`: drop trailing whitespace. -/
def pyRstrip (l : List Char) : List Char :=
  (l.reverse.dropWhile isPyWhite).reverse

/-- One character of `str.replace(' ', '_')` (line 197). -/
def spaceToUnderscore (c : Char) : Char :=
  if c = ' ' then '_' else c

/-- The title-cleaning pipeline of `download` (lines 195-197): filter to
alphanumerics / space / hyphen / underscore, `rstrip`, replace spaces with
underscores, truncate to 50 characters. -/
def sanitizeTitle (title : List Char) : List Char :=
  ((pyRstrip (title.filter keepChar)).map spaceToUnderscore).take 50

/-- The title used by `download`: the sanitized extracted title, or the raw
`video_id` when title extraction raised (lines 198-200).  `extracted = none`
models the `except` branch. -/
def downloadTitle (extracted : Option (List Char)) (videoId : List Char) : List Char :=
  match extracted with
  | none => videoId
  | some t => sanitizeTitle t

/-- The character class `[A-Za-z0-9 _-]` named by the specification,
spelled out as codepoint ranges so that it is independent of `keepChar`. -/
def validChar (c : Char) : Prop :=
  (65 ≤ c.toNat ∧ c.toNat ≤ 90) ∨ (97 ≤ c.toNat ∧ c.toNat ≤ 122) ∨
  (48 ≤ c.toNat ∧ c.toNat ≤ 57) ∨ c = ' ' ∨ c = '-' ∨ c = '_'

/-! ## Quality resolver (`server.py` lines 210-220) -/

/-- The `quality_formats` dict literal (lines 211-217). -/
def quality_formats : List (Path × Path) :=
  [("360p".toList,
    "bestvideo[height<=360][ext=mp4]+bestaudio[ext=m4a]/best[height<=360][ext=mp4]/best[ext=mp4]".toList),
   ("480p".toList,
    "bestvideo[height<=480][ext=mp4]+bestaudio[ext=m4a]/best[height<=480][ext=mp4]/best[ext=mp4]".toList),
   ("720p".toList,
    "bestvideo[height<=720][ext=mp4]+bestaudio[ext=m4a]/best[height<=720][ext=mp4]/best[ext=mp4]".toList),
   ("1080p".toList,
    "bestvideo[height<=1080][ext=mp4]+bestaudio[ext=m4a]/best[height<=1080][ext=mp4]/best[ext=mp4]".toList),
   ("best".toList,
    "bestvideo[ext=mp4]+bestaudio[ext=m4a]/best[ext=mp4]/mp4".toList)]

/-- Python `dict.get(key, default)` over an association-list model. -/
def dictGetD (d : List (Path × Path)) (k dflt : Path) : Path :=
  match d with
  | [] => dflt
  | (k1, v) :: rest => if k = k1 then v else dictGetD rest k dflt

/-- `quality_formats.get(quality, quality_formats['best'])` (line 220); the
default is the dict entry for `'best'`. -/
def format_selector (q : Path) : Path :=
  dictGetD quality_formats q
    ("bestvideo[ext=mp4]+bestaudio[ext=m4a]/best[ext=mp4]/mp4".toList)

/-! ## Filesystem and registry model -/

/-- Filesystem model: each existing path maps to (size, creation time).
`os.path.exists` is membership, `os.path.getsize` and `os.path.getctime`
are the two components, `os.remove` is `fsRemove`. -/
abbrev FsT := List (Path × Nat × Int)

def fsLookup : FsT → Path → Option (Nat × Int)
  | [], _ => none
  | (q, sz, ct) :: rest, p => if p = q then some (sz, ct) else fsLookup rest p

def fsRemove : FsT → Path → FsT
  | [], _ => []
  | (q, sz, ct) :: rest, p => if q = p then fsRemove rest p else (q, sz, ct) :: fsRemove rest p

def fsWrite (fs : FsT) (p : Path) (sz : Nat) (ct : Int) : FsT :=
  (p, sz, ct) :: fsRemove fs p

def registerPath (s : Finset Path) (p : Path) : Finset Path := insert p s

def unregisterPath (s : Finset Path) (p : Path) : Finset Path := s.erase p

/-- The `delayed_cleanup` closure (`server.py` lines 265-274), observed after
its 30-second sleep: delete the file if present, then discard the path from
the tracked set unconditionally. -/
def delayedCleanup (fs : FsT) (reg : Finset Path) (p : Path) : FsT × Finset Path :=
  ((if (fsLookup fs p).isSome then fsRemove fs p else fs), reg.erase p)

/-- State threaded through one `cleanup_old_files` sweep (`server.py`
lines 23-45): the filesystem, the `files_to_remove` accumulator, and the
entries whose deletion raised (the logged errors). -/
structure SweepState where
  fs : FsT
  toRemove : List Path
  errors : List Path

/-- One iteration of the `for file_path in temp_files.copy()` loop
(lines 29-41): an existing file older than 3600 seconds is deleted (a
failing delete is caught, logged and the entry still queued for removal);
a missing file is queued for removal without error. -/
def sweepStep (now : Int) (removeFails : Path → Bool) (st : SweepState) (p : Path) :
    SweepState :=
  match fsLookup st.fs p with
  | some (_, ct) =>
      if now - ct > 3600 then
        if removeFails p then
          { st with toRemove := p :: st.toRemove, errors := p :: st.errors }
        else
          { fs := fsRemove st.fs p, toRemove := p :: st.toRemove, errors := st.errors }
      else st
  | none => { st with toRemove := p :: st.toRemove }

/-- The whole loop of `cleanup_old_files`, over a snapshot of the tracked
set (`temp_files.copy()`), starting from empty accumulators. -/
def sweepRun (now : Int) (removeFails : Path → Bool) (entries : List Path) (fs : FsT) :
    SweepState :=
  entries.foldl (sweepStep now removeFails) ⟨fs, [], []⟩

/-- The final `temp_files -= files_to_remove` (line 43). -/
def sweepRegistry (reg : Finset Path) (st : SweepState) : Finset Path :=
  reg.filter (fun p => p ∉ st.toRemove)

/-! ## Download orchestrator (`server.py` lines 179-290) -/

/-- `TEMP_DIR = os.path.join(tempfile.gettempdir(), 'yt_downloader')`
(line 16), with `tempfile.gettempdir()` modelled as `/tmp`. -/
def TEMP_DIR : Path := "/tmp/yt_downloader".toList

/-- `os.path.join` for the second components this server builds: an
absolute second component replaces the first, otherwise they are joined
with a slash separator. -/
def osPathJoin (a b : Path) : Path :=
  if b.head? = some '/' then b else a ++ '/' :: b

/-- The f-string `f"{video_title}_{quality}_{timestamp}.mp4"` (line 204). -/
def outputFileName (title quality ts : Path) : Path :=
  title ++ "_".toList ++ quality ++ "_".toList ++ ts ++ ".mp4".toList

/-- `output_file = os.path.join(TEMP_DIR, f"{video_title}_{quality}_{timestamp}.mp4")`
(line 204). -/
def output_file (title quality ts : Path) : Path :=
  osPathJoin TEMP_DIR (outputFileName title quality ts)

/-- Behaviour of the extraction collaborator's download call
(`ydl.download([url])`, line 242): it raises, returns without creating the
output file, or writes a file of the given size. -/
inductive DlOutcome where
  | raises
  | noFile
  | writes (size : Nat)

/-- The two collaborator invocations the handler can make. -/
inductive CollabCall where
  | metadata
  | download
deriving DecidableEq

/-- Observable outcome of one `/download` request: HTTP status, response
body (for errors), the registry and filesystem after the response, and the
collaborator calls made. -/
structure DlResult where
  status : Nat
  body : Path
  registry : Finset Path
  fs : FsT
  calls : List CollabCall

/-- The `/download` handler (lines 179-260) up to the success response:
missing or empty `videoId` yields 400 before any collaborator call or
registration; otherwise the title is extracted (`extractedTitle = none`
models a raised extraction), the output path is built from the raw quality
and registered, any pre-existing file at the path is removed, and the
download outcome is checked: a raise yields 500, a missing output file
yields 500, a zero-byte file is deleted and yields 500 (the path staying
registered), and a non-empty file yields 200.  The `send_file` failure
branch and the scheduling of `delayedCleanup` are outside this model. -/
def downloadHandler (videoId : Option Path) (qualityArg : Option Path) (ts : Path)
    (extractedTitle : Option Path) (dl : DlOutcome) (now : Int)
    (reg : Finset Path) (fs : FsT) : DlResult :=
  match videoId with
  | none => ⟨400, "No video ID provided".toList, reg, fs, []⟩
  | some vid =>
    if vid = [] then ⟨400, "No video ID provided".toList, reg, fs, []⟩
    else
      let quality := qualityArg.getD ("best".toList)
      let title := downloadTitle extractedTitle vid
      let outFile := output_file title quality ts
      let reg1 := registerPath reg outFile
      let fs1 := if (fsLookup fs outFile).isSome then fsRemove fs outFile else fs
      match dl with
      | .raises => ⟨500, "YouTube download error".toList, reg1, fs1,
          [.metadata, .download]⟩
      | .noFile => ⟨500, "Error: Download completed but file not found".toList, reg1, fs1,
          [.metadata, .download]⟩
      | .writes size =>
          let fs2 := fsWrite fs1 outFile size now
          if size = 0 then
            ⟨500, "Error: Downloaded file is empty".toList, reg1, fsRemove fs2 outFile,
              [.metadata, .download]⟩
          else
            ⟨200, [], reg1, fs2, [.metadata, .download]⟩

/-! ## Path normalization, for the raw-quality path-escape claim -/

/-- Split a path into slash-separated components. -/


def splitSlashAux : List Char → List Char → List (List Char)
  | [], acc => [acc.reverse]
  | c :: rest, acc =>
    if c = '/' then acc.reverse :: splitSlashAux rest [] else splitSlashAux rest (c :: acc)

def splitSlash (l : List Char) : List (List Char) :=
  splitSlashAux l []

/-- Resolve empty, `.` and `..` components against a stack, as POSIX path
normalization does (at the root, `..` stays at the root). -/
def normAux : List (List Char) → List (List Char) → List (List Char)
  | [], stack => stack.reverse
  | c :: rest, stack =>
    if c = [] ∨ c = (".".toList : List Char) then normAux rest stack
    else if c = ("..".toList : List Char) then normAux rest stack.tail
    else normAux rest (c :: stack)

def normalizePath (p : Path) : List (List Char) :=
  normAux (splitSlash p) []

/-- Whether a path still lies inside `TEMP_DIR` once normalized. -/
def underTempDir (p : Path) : Bool :=
  (normalizePath TEMP_DIR).isPrefixOf (normalizePath p)

/-! ## Video info endpoint (`server.py` lines 114-171) -/

/-- Python `round(x, 1)` rounds half to even; modelled exactly on the
rationals (the values the claims evaluate are exactly representable
floats, so the float/rational gap does not matter here). -/
def roundHalfEven (y : ℚ) : Int :=
  if y - ⌊y⌋ < 1/2 then ⌊y⌋
  else if (1 : ℚ)/2 < y - ⌊y⌋ then ⌊y⌋ + 1
  else if ⌊y⌋ % 2 = 0 then ⌊y⌋ else ⌊y⌋ + 1

def pyRound1 (x : ℚ) : ℚ :=
  (roundHalfEven (x * 10) : ℚ) / 10

/-- Python `int(x)`: truncation toward zero. -/
def pyInt (x : ℚ) : Int :=
  if 0 ≤ x then ⌊x⌋ else ⌈x⌉

/-- One entry of the `qualities` map built at lines 152-167 (the
display-only `size_formatted` string is not modelled). -/
structure QualityEstimate where
  size_bytes : Int
  size_mb : ℚ
  estimated : Bool

/-- The `/video-info` JSON payload (lines 135-167). -/
structure VideoInfoResp where
  duration : Int
  q360 : QualityEstimate
  q480 : QualityEstimate
  q720 : QualityEstimate
  q1080 : QualityEstimate

/-- Lines 152-154: `estimated_mb = round(estimated_mb, 1)` and
`estimated_bytes = int(estimated_mb * 1024 * 1024)`. -/
def mkEstimate (minutes : ℚ) (rate : ℚ) : QualityEstimate :=
  let mb := pyRound1 (minutes * rate)
  ⟨pyInt (mb * 1024 * 1024), mb, true⟩

/-- The `/video-info` response for a metadata result with the given
optional duration: the reported duration defaults to 0 (line 137) while
the size estimates default the duration to 180 seconds (line 142), with
the per-quality MB-per-minute rates 5, 8, 15, 25 (lines 145-150). -/
def videoInfoResponse (dur : Option Int) : VideoInfoResp :=
  let minutes : ℚ := (dur.getD 180 : Int) / 60
  ⟨dur.getD 0, mkEstimate minutes 5, mkEstimate minutes 8, mkEstimate minutes 15,
    mkEstimate minutes 25⟩

/-! ## Helper lemmas -/

theorem keepChar_spaceToUnderscore (d : Char) (h : keepChar d = true) :
    validChar (spaceToUnderscore d) ∧ isPyWhite (spaceToUnderscore d) = false := by
  by_cases hd : d = ' '
  · subst hd
    refine ⟨?_, by decide⟩
    simp [validChar, spaceToUnderscore]
  · have hs : spaceToUnderscore d = d := by simp [spaceToUnderscore, hd]
    rw [hs]
    simp only [keepChar, Bool.or_eq_true, decide_eq_true_eq] at h
    rcases h with ((ha | hsp) | hdash) | hund
    · simp only [pyIsAlnum, Bool.or_eq_true, Bool.and_eq_true, decide_eq_true_eq] at ha
      have hlow : 48 ≤ d.toNat := by rcases ha with (h | h) | h <;> omega
      constructor
      · rcases ha with (h | h) | h
        · exact Or.inl h
        · exact Or.inr (Or.inl h)
        · exact Or.inr (Or.inr (Or.inl h))
      · simp only [isPyWhite, Bool.or_eq_false_iff, decide_eq_false_iff_not]
        refine ⟨⟨⟨?_, ?_⟩, ?_⟩, ?_⟩ <;> rintro rfl <;> revert hlow <;> decide
    · exact absurd hsp hd
    · exact ⟨Or.inr (Or.inr (Or.inr (Or.inr (Or.inl hdash)))), by subst hdash; decide⟩
    · exact ⟨Or.inr (Or.inr (Or.inr (Or.inr (Or.inr hund)))), by subst hund; decide⟩

theorem mem_sanitizeTitle {c : Char} {t : List Char} (h : c ∈ sanitizeTitle t) :
    ∃ d, keepChar d = true ∧ c = spaceToUnderscore d := by
  have h1 : c ∈ (pyRstrip (t.filter keepChar)).map spaceToUnderscore :=
    List.take_subset _ _ h
  obtain ⟨d, hd, rfl⟩ := List.mem_map.mp h1
  simp only [pyRstrip] at hd
  have h2 : d ∈ (t.filter keepChar).reverse.dropWhile isPyWhite :=
    List.mem_reverse.mp hd
  have h3 : d ∈ t.filter keepChar :=
    List.mem_reverse.mp ((List.dropWhile_sublist _).subset h2)
  exact ⟨d, (List.mem_filter.mp h3).2, rfl⟩

theorem fsLookup_fsRemove_self (fs : FsT) (p : Path) :
    fsLookup (fsRemove fs p) p = none := by
  induction fs with
  | nil => rfl
  | cons e rest ih =>
    obtain ⟨q, sz, ct⟩ := e
    by_cases hq : q = p
    · simp [fsRemove, hq, ih]
    · simp [fsRemove, fsLookup, hq, Ne.symm hq, ih]

theorem fsLookup_fsRemove_ne (fs : FsT) (p q : Path) (h : p ≠ q) :
    fsLookup (fsRemove fs q) p = fsLookup fs p := by
  induction fs with
  | nil => rfl
  | cons e rest ih =>
    obtain ⟨r, sz, ct⟩ := e
    by_cases hr : r = q
    · subst hr
      simp [fsRemove, fsLookup, h, ih]
    · by_cases hp : p = r
      · simp [fsRemove, fsLookup, hr, hp]
      · simp [fsRemove, fsLookup, hr, hp, ih]

theorem sweepStep_other (now : Int) (rf : Path → Bool) (st : SweepState) (q p : Path)
    (hqp : q ≠ p) :
    fsLookup (sweepStep now rf st q).fs p = fsLookup st.fs p ∧
    ((p ∈ (sweepStep now rf st q).toRemove) ↔ p ∈ st.toRemove) ∧
    ((p ∈ (sweepStep now rf st q).errors) ↔ p ∈ st.errors) := by
  have hpq : ¬ p = q := fun h => hqp h.symm
  unfold sweepStep
  cases h : fsLookup st.fs q with
  | none => simp [List.mem_cons, hpq]
  | some v =>
    obtain ⟨sz, ct⟩ := v
    dsimp only
    split_ifs with hage hfail
    · simp [List.mem_cons, hpq]
    · simp [List.mem_cons, hpq, fsLookup_fsRemove_ne st.fs p q hqp.symm]
    · simp

theorem sweepFold_notMem (now : Int) (rf : Path → Bool) (entries : List Path)
    (st : SweepState) (p : Path) (hp : p ∉ entries) :
    fsLookup (List.foldl (sweepStep now rf) st entries).fs p = fsLookup st.fs p ∧
    ((p ∈ (List.foldl (sweepStep now rf) st entries).toRemove) ↔ p ∈ st.toRemove) ∧
    ((p ∈ (List.foldl (sweepStep now rf) st entries).errors) ↔ p ∈ st.errors) := by
  induction entries generalizing st with
  | nil => simp
  | cons q rest ih =>
    have hq : q ≠ p := fun h => hp (h ▸ List.mem_cons_self q rest)
    have hp2 : p ∉ rest := fun h => hp (List.mem_cons_of_mem q h)
    have hstep := sweepStep_other now rf st q p hq
    have hrest := ih (sweepStep now rf st q) hp2
    simp only [List.foldl_cons]
    exact ⟨hrest.1.trans hstep.1, hrest.2.1.trans hstep.2.1, hrest.2.2.trans hstep.2.2⟩

theorem sweepStep_self_none (now : Int) (rf : Path → Bool) (st : SweepState) (p : Path)
    (h : fsLookup st.fs p = none) :
    sweepStep now rf st p = { st with toRemove := p :: st.toRemove } := by
  unfold sweepStep
  rw [h]

theorem sweepStep_self_fresh (now : Int) (rf : Path → Bool) (st : SweepState) (p : Path)
    (sz : Nat) (ct : Int) (h : fsLookup st.fs p = some (sz, ct)) (hage : ¬ now - ct > 3600) :
    sweepStep now rf st p = st := by
  unfold sweepStep
  rw [h]
  simp [hage]

theorem sweepStep_self_old_fail (now : Int) (rf : Path → Bool) (st : SweepState) (p : Path)
    (sz : Nat) (ct : Int) (h : fsLookup st.fs p = some (sz, ct)) (hage : now - ct > 3600)
    (hf : rf p = true) :
    sweepStep now rf st p = { st with toRemove := p :: st.toRemove, errors := p :: st.errors } := by
  unfold sweepStep
  rw [h]
  simp [hage, hf]

theorem sweepStep_self_old_ok (now : Int) (rf : Path → Bool) (st : SweepState) (p : Path)
    (sz : Nat) (ct : Int) (h : fsLookup st.fs p = some (sz, ct)) (hage : now - ct > 3600)
    (hf : rf p = false) :
    sweepStep now rf st p =
      { fs := fsRemove st.fs p, toRemove := p :: st.toRemove, errors := st.errors } := by
  unfold sweepStep
  rw [h]
  simp [hage, hf]

/-- Per-entry outcome of one sweep: whether an entry is removed from
tracking, whether it is logged as an error, and what happens to its file
depend only on that entry's own filesystem state and delete-failure
behaviour. -/
theorem sweepRun_characterize (now : Int) (rf : Path → Bool) (entries : List Path)
    (fs : FsT) (p : Path) (hnd : entries.Nodup) (hp : p ∈ entries) :
    ((p ∈ (sweepRun now rf entries fs).toRemove) ↔
      (fsLookup fs p = none ∨ ∃ sz ct, fsLookup fs p = some (sz, ct) ∧ now - ct > 3600)) ∧
    ((p ∈ (sweepRun now rf entries fs).errors) ↔
      (∃ sz ct, fsLookup fs p = some (sz, ct) ∧ now - ct > 3600 ∧ rf p = true)) ∧
    (fsLookup fs p = none → fsLookup (sweepRun now rf entries fs).fs p = none) ∧
    (∀ sz ct, fsLookup fs p = some (sz, ct) →
      fsLookup (sweepRun now rf entries fs).fs p =
        (if now - ct > 3600 ∧ rf p = false then none else some (sz, ct))) := by
  obtain ⟨l1, l2, rfl⟩ := List.append_of_mem hp
  have hnd1 := List.nodup_append.mp hnd
  have hp1 : p ∉ l1 := fun h => hnd1.2.2 h (List.mem_cons_self p l2)
  have hp2 : p ∉ l2 := (List.nodup_cons.mp hnd1.2.1).1
  unfold sweepRun
  rw [List.foldl_append, List.foldl_cons]
  set st1 := List.foldl (sweepStep now rf) ⟨fs, [], []⟩ l1 with hst1
  have h1 := sweepFold_notMem now rf l1 ⟨fs, [], []⟩ p hp1
  have hl1 : fsLookup st1.fs p = fsLookup fs p := h1.1
  have hnr1 : p ∉ st1.toRemove := fun h => by simpa using h1.2.1.mp h
  have hne1 : p ∉ st1.errors := fun h => by simpa using h1.2.2.mp h
  cases hfp : fsLookup fs p with
  | none =>
    have hstep := sweepStep_self_none now rf st1 p (hl1.trans hfp)
    rw [hstep]
    have h2 := sweepFold_notMem now rf l2
      { st1 with toRemove := p :: st1.toRemove } p hp2
    refine ⟨?_, ?_, ?_, ?_⟩
    · rw [h2.2.1]
      exact iff_of_true (List.mem_cons_self p _) (Or.inl rfl)
    · rw [h2.2.2]
      constructor
      · intro h
        exact absurd h hne1
      · rintro ⟨sz, ct, hc, -⟩
        cases hc
    · intro _
      rw [h2.1]
      exact hl1.trans hfp
    · intro sz ct hc
      cases hc
  | some v =>
    obtain ⟨sz0, ct0⟩ := v
    by_cases hage : now - ct0 > 3600
    · by_cases hf : rf p = true
      · have hstep := sweepStep_self_old_fail now rf st1 p sz0 ct0 (hl1.trans hfp) hage hf
        rw [hstep]
        have h2 := sweepFold_notMem now rf l2
          { st1 with toRemove := p :: st1.toRemove, errors := p :: st1.errors } p hp2
        refine ⟨?_, ?_, ?_, ?_⟩
        · rw [h2.2.1]
          exact iff_of_true (List.mem_cons_self p _) (Or.inr ⟨sz0, ct0, rfl, hage⟩)
        · rw [h2.2.2]
          exact iff_of_true (List.mem_cons_self p _) ⟨sz0, ct0, rfl, hage, hf⟩
        · intro hc
          cases hc
        · intro sz ct hc
          simp only [Option.some.injEq, Prod.mk.injEq] at hc
          obtain ⟨rfl, rfl⟩ := hc
          rw [h2.1, if_neg (fun hcon => absurd hcon.2 (by simp [hf]))]
          exact hl1.trans hfp
      · have hf2 : rf p = false := by simpa using hf
        have hstep := sweepStep_self_old_ok now rf st1 p sz0 ct0 (hl1.trans hfp) hage hf2
        rw [hstep]
        have h2 := sweepFold_notMem now rf l2
          { fs := fsRemove st1.fs p, toRemove := p :: st1.toRemove, errors := st1.errors } p hp2
        refine ⟨?_, ?_, ?_, ?_⟩
        · rw [h2.2.1]
          exact iff_of_true (List.mem_cons_self p _) (Or.inr ⟨sz0, ct0, rfl, hage⟩)
        · rw [h2.2.2]
          constructor
          · intro h
            exact absurd h hne1
          · rintro ⟨sz, ct, hc, -, hrf⟩
            rw [hrf] at hf2
            cases hf2
        · intro hc
          cases hc
        · intro sz ct hc
          simp only [Option.some.injEq, Prod.mk.injEq] at hc
          obtain ⟨rfl, rfl⟩ := hc
          rw [h2.1, if_pos ⟨hage, hf2⟩]
          exact fsLookup_fsRemove_self st1.fs p
    · have hstep := sweepStep_self_fresh now rf st1 p sz0 ct0 (hl1.trans hfp) hage
      rw [hstep]
      have h2 := sweepFold_notMem now rf l2 st1 p hp2
      refine ⟨?_, ?_, ?_, ?_⟩
      · rw [h2.2.1]
        constructor
        · intro h
          exact absurd h hnr1
        · rintro (hc | ⟨sz, ct, hc, hc2⟩)
          · cases hc
          · simp only [Option.some.injEq, Prod.mk.injEq] at hc
            obtain ⟨rfl, rfl⟩ := hc
            exact absurd hc2 hage
      · rw [h2.2.2]
        constructor
        · intro h
          exact absurd h hne1
        · rintro ⟨sz, ct, hc, hc2, -⟩
          simp only [Option.some.injEq, Prod.mk.injEq] at hc
          obtain ⟨rfl, rfl⟩ := hc
          exact absurd hc2 hage
      · intro hc
        cases hc
      · intro sz ct hc
        simp only [Option.some.injEq, Prod.mk.injEq] at hc
        obtain ⟨rfl, rfl⟩ := hc
        rw [h2.1, if_neg (fun hcon => hage hcon.1)]
        exact hl1.trans hfp

theorem roundHalfEven_intCast (n : Int) : roundHalfEven ((n : ℚ)) = n := by
  unfold roundHalfEven
  rw [Int.floor_intCast, sub_self]
  norm_num

theorem pyInt_intCast (n : Int) : pyInt ((n : ℚ)) = n := by
  unfold pyInt
  split_ifs with h
  · exact Int.floor_intCast n
  · exact Int.ceil_intCast n

theorem estimate_eval (minutes rate : ℚ) (n : Int)
    (h : minutes * rate * 10 = ((10 * n : Int) : ℚ)) :
    (mkEstimate minutes rate).size_mb = (n : ℚ) ∧
    (mkEstimate minutes rate).size_bytes = n * 1024 * 1024 := by
  have hmb : pyRound1 (minutes * rate) = (n : ℚ) := by
    unfold pyRound1
    rw [h, roundHalfEven_intCast]
    push_cast
    field_simp
  refine ⟨hmb, ?_⟩
  show pyInt (pyRound1 (minutes * rate) * 1024 * 1024) = n * 1024 * 1024
  rw [hmb]
  exact (by push_cast; ring : ((n : ℚ) * 1024 * 1024) = ((n * 1024 * 1024 : Int) : ℚ)) ▸
    pyInt_intCast (n * 1024 * 1024)


/-! ## The claims -/

/-- C1, counterexample: a `/download` request whose extraction produces a
zero-byte file yields a 500 response and the file is deleted from disk,
but the output path is still a member of the registry immediately after
the response — contradicting the claim that it is absent from the
registry. -/
theorem empty_artifact_counterexample :
    ((downloadHandler (some ("abc".toList)) none ("20240101_000000".toList)
        (some ("Title".toList)) (.writes 0) 0 ∅ []).status = 500) ∧
    (fsLookup (downloadHandler (some ("abc".toList)) none ("20240101_000000".toList)
        (some ("Title".toList)) (.writes 0) 0 ∅ []).fs
      ("/tmp/yt_downloader/Title_best_20240101_000000.mp4".toList) = none) ∧
    (("/tmp/yt_downloader/Title_best_20240101_000000.mp4".toList : Path) ∈
      (downloadHandler (some ("abc".toList)) none ("20240101_000000".toList)
        (some ("Title".toList)) (.writes 0) 0 ∅ []).registry) := by
  refine ⟨rfl, by decide, by decide⟩

/-- C1, amended: for every request whose download writes a zero-byte
file, the response is a 500 with the empty-artifact message, the file is
deleted from disk immediately, and the path remains in the registry's
tracked set (to be reclaimed later by the sweeper). -/
theorem empty_artifact_amended (vid : Path) (hvid : vid ≠ []) (qualityArg : Option Path)
    (ts : Path) (extractedTitle : Option Path) (now : Int) (reg : Finset Path) (fs : FsT) :
    (downloadHandler (some vid) qualityArg ts extractedTitle (.writes 0) now reg fs).status
        = 500 ∧
    (downloadHandler (some vid) qualityArg ts extractedTitle (.writes 0) now reg fs).body
        = "Error: Downloaded file is empty".toList ∧
    fsLookup
      (downloadHandler (some vid) qualityArg ts extractedTitle (.writes 0) now reg fs).fs
      (output_file (downloadTitle extractedTitle vid) (qualityArg.getD ("best".toList)) ts)
        = none ∧
    (output_file (downloadTitle extractedTitle vid) (qualityArg.getD ("best".toList)) ts) ∈
      (downloadHandler (some vid) qualityArg ts extractedTitle (.writes 0) now reg fs).registry
    := by
  simp only [downloadHandler, if_neg hvid]
  refine ⟨rfl, rfl, fsLookup_fsRemove_self _ _, Finset.mem_insert_self _ _⟩

/-- Witness for the amended C1 at a concrete request. -/
theorem empty_artifact_amended_witness :
    (downloadHandler (some ("xyz".toList)) none ("ts0".toList) none (.writes 0) 7 ∅ []).status
        = 500 ∧
    (downloadHandler (some ("xyz".toList)) none ("ts0".toList) none (.writes 0) 7 ∅ []).body
        = "Error: Downloaded file is empty".toList ∧
    fsLookup (downloadHandler (some ("xyz".toList)) none ("ts0".toList) none
        (.writes 0) 7 ∅ []).fs
      (output_file (downloadTitle none ("xyz".toList)) ((none : Option Path).getD ("best".toList))
        ("ts0".toList)) = none ∧
    (output_file (downloadTitle none ("xyz".toList)) ((none : Option Path).getD ("best".toList))
        ("ts0".toList)) ∈
      (downloadHandler (some ("xyz".toList)) none ("ts0".toList) none (.writes 0) 7 ∅ []).registry
    :=
  empty_artifact_amended ("xyz".toList) (by decide) none ("ts0".toList) none 7 ∅ []

/-- C2, counterexample: sanitizing the title `!!!` gives the empty
string even though the fallback identifier `abc` is non-empty — the code
falls back to the identifier only when title extraction raises, not when
the sanitized result is empty. -/
theorem sanitize_nonempty_counterexample :
    downloadTitle (some ("!!!".toList)) ("abc".toList) = [] ∧ ("abc".toList : List Char) ≠ [] :=
  ⟨by decide, by decide⟩

/-- C2, amended: for every ASCII raw title, the sanitize output contains
only characters of `[A-Za-z0-9 _-]`, contains no whitespace at all (hence
no trailing whitespace), and has length at most 50; the fallback to the
raw source identifier happens exactly when title extraction failed.  The
output may however be empty (see the counterexample). -/
theorem sanitize_amended (t vid : List Char) (hascii : ∀ c ∈ t, c.toNat ≤ 127) :
    (∀ c ∈ sanitizeTitle t, validChar c) ∧
    (∀ c ∈ sanitizeTitle t, isPyWhite c = false) ∧
    (sanitizeTitle t).length ≤ 50 ∧
    downloadTitle none vid = vid := by
  refine ⟨?_, ?_, ?_, rfl⟩
  · intro c hc
    obtain ⟨d, hd, rfl⟩ := mem_sanitizeTitle hc
    exact (keepChar_spaceToUnderscore d hd).1
  · intro c hc
    obtain ⟨d, hd, rfl⟩ := mem_sanitizeTitle hc
    exact (keepChar_spaceToUnderscore d hd).2
  · simp [sanitizeTitle, List.length_take]

/-- Witness for the amended C2 at a concrete ASCII title. -/
theorem sanitize_amended_witness :
    (∀ c ∈ sanitizeTitle ("My Video! HD".toList), validChar c) ∧
    (∀ c ∈ sanitizeTitle ("My Video! HD".toList), isPyWhite c = false) ∧
    (sanitizeTitle ("My Video! HD".toList)).length ≤ 50 ∧
    downloadTitle none ("abc".toList) = "abc".toList :=
  sanitize_amended ("My Video! HD".toList) ("abc".toList) (by decide)

/-- C3: each of the five known quality tags resolves to its three-tier
format-selector expression, and every other string resolves to exactly the
selector of `best`. -/
theorem quality_resolver_spec :
    format_selector ("360p".toList) =
      "bestvideo[height<=360][ext=mp4]+bestaudio[ext=m4a]/best[height<=360][ext=mp4]/best[ext=mp4]".toList ∧
    format_selector ("480p".toList) =
      "bestvideo[height<=480][ext=mp4]+bestaudio[ext=m4a]/best[height<=480][ext=mp4]/best[ext=mp4]".toList ∧
    format_selector ("720p".toList) =
      "bestvideo[height<=720][ext=mp4]+bestaudio[ext=m4a]/best[height<=720][ext=mp4]/best[ext=mp4]".toList ∧
    format_selector ("1080p".toList) =
      "bestvideo[height<=1080][ext=mp4]+bestaudio[ext=m4a]/best[height<=1080][ext=mp4]/best[ext=mp4]".toList ∧
    format_selector ("best".toList) =
      "bestvideo[ext=mp4]+bestaudio[ext=m4a]/best[ext=mp4]/mp4".toList ∧
    ∀ q : Path,
      q ∉ [("360p".toList : Path), "480p".toList, "720p".toList, "1080p".toList, "best".toList] →
      format_selector q = format_selector ("best".toList) := by
  refine ⟨by decide, by decide, by decide, by decide, by decide, ?_⟩
  intro q hq
  simp only [List.mem_cons, List.not_mem_nil, or_false, not_or] at hq
  obtain ⟨h1, h2, h3, h4, h5⟩ := hq
  rw [show format_selector ("best".toList) =
        ("bestvideo[ext=mp4]+bestaudio[ext=m4a]/best[ext=mp4]/mp4".toList : Path) from by decide]
  simp only [format_selector, dictGetD, quality_formats]
  rw [if_neg h1, if_neg h2, if_neg h3, if_neg h4, if_neg h5]

/-- Witness for C3 at the unknown tag `4k`. -/
theorem quality_resolver_spec_witness :
    (("4k".toList : Path) ∉
      [("360p".toList : Path), "480p".toList, "720p".toList, "1080p".toList, "best".toList]) ∧
    format_selector ("4k".toList) = format_selector ("best".toList) :=
  ⟨by decide, quality_resolver_spec.2.2.2.2.2 ("4k".toList) (by decide)⟩

/-- C4: during a sweep, an entry whose file is absent is removed from
tracking and not treated as an error; an entry whose deletion fails is
still removed from tracking; and whether one entry's deletion fails has no
effect on any other entry's outcome (removal, error, file state). -/
theorem sweep_entry_independent (now : Int) (rf rf2 : Path → Bool) (entries : List Path)
    (fs : FsT) (reg : Finset Path) (p q : Path) (hnd : entries.Nodup) (hp : p ∈ entries)
    (hq : q ∈ entries) (hqp : q ≠ p) (hagree : ∀ r, r ≠ p → rf2 r = rf r) :
    (fsLookup fs p = none →
      p ∈ (sweepRun now rf entries fs).toRemove ∧
      p ∉ (sweepRun now rf entries fs).errors ∧
      p ∉ sweepRegistry reg (sweepRun now rf entries fs)) ∧
    (∀ sz ct, fsLookup fs p = some (sz, ct) → now - ct > 3600 → rf p = true →
      p ∈ (sweepRun now rf entries fs).toRemove ∧
      p ∉ sweepRegistry reg (sweepRun now rf entries fs)) ∧
    ((q ∈ (sweepRun now rf2 entries fs).toRemove ↔ q ∈ (sweepRun now rf entries fs).toRemove) ∧
     (q ∈ (sweepRun now rf2 entries fs).errors ↔ q ∈ (sweepRun now rf entries fs).errors) ∧
     fsLookup (sweepRun now rf2 entries fs).fs q = fsLookup (sweepRun now rf entries fs).fs q) := by
  have hcp := sweepRun_characterize now rf entries fs p hnd hp
  have hcq := sweepRun_characterize now rf entries fs q hnd hq
  have hcq2 := sweepRun_characterize now rf2 entries fs q hnd hq
  have hq2 : rf2 q = rf q := hagree q hqp
  refine ⟨?_, ?_, ?_, ?_, ?_⟩
  · intro hn
    have hr : p ∈ (sweepRun now rf entries fs).toRemove := hcp.1.mpr (Or.inl hn)
    refine ⟨hr, ?_, ?_⟩
    · intro h
      obtain ⟨sz, ct, hc, -⟩ := hcp.2.1.mp h
      rw [hn] at hc
      cases hc
    · intro hmem
      exact (Finset.mem_filter.mp hmem).2 hr
  · intro sz ct hc hage hfail
    have hr : p ∈ (sweepRun now rf entries fs).toRemove :=
      hcp.1.mpr (Or.inr ⟨sz, ct, hc, hage⟩)
    exact ⟨hr, fun hmem => (Finset.mem_filter.mp hmem).2 hr⟩
  · rw [hcq2.1, hcq.1]
  · rw [hcq2.2.1, hcq.2.1, hq2]
  · cases hc : fsLookup fs q with
    | none => rw [hcq2.2.2.1 hc, hcq.2.2.1 hc]
    | some v =>
      obtain ⟨sz, ct⟩ := v
      rw [hcq2.2.2.2 sz ct hc, hcq.2.2.2 sz ct hc, hq2]

/-- Witness for C4: a two-entry sweep where the first entry's delete
fails and the second entry's file is absent. -/
theorem sweep_entry_independent_witness :
    (("/tmp/yt_downloader/a.mp4".toList : Path) ∈
      (sweepRun 4000 (fun r => decide (r = ("/tmp/yt_downloader/a.mp4".toList : Path)))
        [("/tmp/yt_downloader/a.mp4".toList : Path), "/tmp/yt_downloader/b.mp4".toList]
        [(("/tmp/yt_downloader/a.mp4".toList : Path), 5, 0)]).toRemove) ∧
    (("/tmp/yt_downloader/a.mp4".toList : Path) ∉
      sweepRegistry {("/tmp/yt_downloader/a.mp4".toList : Path), "/tmp/yt_downloader/b.mp4".toList}
        (sweepRun 4000 (fun r => decide (r = ("/tmp/yt_downloader/a.mp4".toList : Path)))
          [("/tmp/yt_downloader/a.mp4".toList : Path), "/tmp/yt_downloader/b.mp4".toList]
          [(("/tmp/yt_downloader/a.mp4".toList : Path), 5, 0)])) ∧
    (("/tmp/yt_downloader/b.mp4".toList : Path) ∈
        (sweepRun 4000 (fun _ => false)
          [("/tmp/yt_downloader/a.mp4".toList : Path), "/tmp/yt_downloader/b.mp4".toList]
          [(("/tmp/yt_downloader/a.mp4".toList : Path), 5, 0)]).toRemove ↔
      ("/tmp/yt_downloader/b.mp4".toList : Path) ∈
        (sweepRun 4000 (fun r => decide (r = ("/tmp/yt_downloader/a.mp4".toList : Path)))
          [("/tmp/yt_downloader/a.mp4".toList : Path), "/tmp/yt_downloader/b.mp4".toList]
          [(("/tmp/yt_downloader/a.mp4".toList : Path), 5, 0)]).toRemove) := by
  have h := sweep_entry_independent 4000
    (fun r => decide (r = ("/tmp/yt_downloader/a.mp4".toList : Path))) (fun _ => false)
    [("/tmp/yt_downloader/a.mp4".toList : Path), "/tmp/yt_downloader/b.mp4".toList]
    [(("/tmp/yt_downloader/a.mp4".toList : Path), 5, 0)]
    {("/tmp/yt_downloader/a.mp4".toList : Path), "/tmp/yt_downloader/b.mp4".toList}
    ("/tmp/yt_downloader/a.mp4".toList) ("/tmp/yt_downloader/b.mp4".toList)
    (by decide) (by decide) (by decide) (by decide) (fun r hr => (decide_eq_false hr).symm)
  have h2 := h.2.1 5 0 (by decide) (by decide) (by decide)
  exact ⟨h2.1, h2.2, h.2.2.1⟩

/-- C5: a sweep with the one-hour threshold leaves a tracked existing
file untouched and tracked when its age is at most one hour, and deletes
it and removes it from the tracked set when its age exceeds one hour. -/
theorem sweep_ttl (now : Int) (rf : Path → Bool) (entries : List Path) (fs : FsT)
    (reg : Finset Path) (p : Path) (sz : Nat) (ct : Int) (hnd : entries.Nodup)
    (hp : p ∈ entries) (hreg : p ∈ reg) (hfs : fsLookup fs p = some (sz, ct)) :
    (now - ct ≤ 3600 →
      fsLookup (sweepRun now rf entries fs).fs p = some (sz, ct) ∧
      p ∈ sweepRegistry reg (sweepRun now rf entries fs)) ∧
    (now - ct > 3600 → rf p = false →
      fsLookup (sweepRun now rf entries fs).fs p = none ∧
      p ∉ sweepRegistry reg (sweepRun now rf entries fs)) := by
  have char := sweepRun_characterize now rf entries fs p hnd hp
  constructor
  · intro hyoung
    have hage : ¬ now - ct > 3600 := not_lt.mpr hyoung
    refine ⟨?_, ?_⟩
    · rw [char.2.2.2 sz ct hfs, if_neg (fun hcon => hage hcon.1)]
    · have hnr : p ∉ (sweepRun now rf entries fs).toRemove := by
        intro h
        rcases char.1.mp h with hc | ⟨sz2, ct2, hc, hc2⟩
        · rw [hfs] at hc
          cases hc
        · rw [hfs] at hc
          simp only [Option.some.injEq, Prod.mk.injEq] at hc
          obtain ⟨rfl, rfl⟩ := hc
          exact hage hc2
      simp only [sweepRegistry, Finset.mem_filter]
      exact ⟨hreg, by simpa using hnr⟩
  · intro hold hok
    refine ⟨?_, ?_⟩
    · rw [char.2.2.2 sz ct hfs, if_pos ⟨hold, hok⟩]
    · have hr : p ∈ (sweepRun now rf entries fs).toRemove :=
        char.1.mpr (Or.inr ⟨sz, ct, hfs, hold⟩)
      intro hmem
      exact (Finset.mem_filter.mp hmem).2 hr

/-- Witness for C5 at a file of age 1000s (kept) and age 8999s
(deleted and untracked). -/
theorem sweep_ttl_witness :
    (fsLookup (sweepRun 2000 (fun _ => false) [("/tmp/yt_downloader/a.mp4".toList : Path)]
        [(("/tmp/yt_downloader/a.mp4".toList : Path), 5, 1000)]).fs
      ("/tmp/yt_downloader/a.mp4".toList) = some (5, 1000)) ∧
    (("/tmp/yt_downloader/a.mp4".toList : Path) ∈
      sweepRegistry {("/tmp/yt_downloader/a.mp4".toList : Path)}
        (sweepRun 2000 (fun _ => false) [("/tmp/yt_downloader/a.mp4".toList : Path)]
          [(("/tmp/yt_downloader/a.mp4".toList : Path), 5, 1000)])) ∧
    (fsLookup (sweepRun 9999 (fun _ => false) [("/tmp/yt_downloader/a.mp4".toList : Path)]
        [(("/tmp/yt_downloader/a.mp4".toList : Path), 5, 1000)]).fs
      ("/tmp/yt_downloader/a.mp4".toList) = none) ∧
    (("/tmp/yt_downloader/a.mp4".toList : Path) ∉
      sweepRegistry {("/tmp/yt_downloader/a.mp4".toList : Path)}
        (sweepRun 9999 (fun _ => false) [("/tmp/yt_downloader/a.mp4".toList : Path)]
          [(("/tmp/yt_downloader/a.mp4".toList : Path), 5, 1000)])) := by
  have hy := (sweep_ttl 2000 (fun _ => false) [("/tmp/yt_downloader/a.mp4".toList : Path)]
    [(("/tmp/yt_downloader/a.mp4".toList : Path), 5, 1000)]
    {("/tmp/yt_downloader/a.mp4".toList : Path)} ("/tmp/yt_downloader/a.mp4".toList) 5 1000
    (by decide) (by decide) (by decide) (by decide)).1 (by decide)
  have ho := (sweep_ttl 9999 (fun _ => false) [("/tmp/yt_downloader/a.mp4".toList : Path)]
    [(("/tmp/yt_downloader/a.mp4".toList : Path), 5, 1000)]
    {("/tmp/yt_downloader/a.mp4".toList : Path)} ("/tmp/yt_downloader/a.mp4".toList) 5 1000
    (by decide) (by decide) (by decide) (by decide)).2 (by decide) (by decide)
  exact ⟨hy.1, hy.2, ho.1, ho.2⟩

/-- C6: for a metadata duration of 180 seconds, `/video-info` reports
size_mb 15.0 / 24.0 / 45.0 / 75.0 for 360p / 480p / 720p / 1080p, each
with size_bytes equal to size_mb × 1024 × 1024 and the estimated flag
set. -/
theorem video_info_duration_180 :
    (videoInfoResponse (some 180)).q360.size_mb = 15 ∧
    (videoInfoResponse (some 180)).q480.size_mb = 24 ∧
    (videoInfoResponse (some 180)).q720.size_mb = 45 ∧
    (videoInfoResponse (some 180)).q1080.size_mb = 75 ∧
    (videoInfoResponse (some 180)).q360.size_bytes = 15 * 1024 * 1024 ∧
    (videoInfoResponse (some 180)).q480.size_bytes = 24 * 1024 * 1024 ∧
    (videoInfoResponse (some 180)).q720.size_bytes = 45 * 1024 * 1024 ∧
    (videoInfoResponse (some 180)).q1080.size_bytes = 75 * 1024 * 1024 ∧
    (videoInfoResponse (some 180)).q360.estimated = true ∧
    (videoInfoResponse (some 180)).q480.estimated = true ∧
    (videoInfoResponse (some 180)).q720.estimated = true ∧
    (videoInfoResponse (some 180)).q1080.estimated = true := by
  refine ⟨?_, ?_, ?_, ?_, ?_, ?_, ?_, ?_, rfl, rfl, rfl, rfl⟩
  · exact ((estimate_eval ((((180 : Int) : ℚ)) / 60) 5 15 (by norm_num)).1).trans (by norm_num)
  · exact ((estimate_eval ((((180 : Int) : ℚ)) / 60) 8 24 (by norm_num)).1).trans (by norm_num)
  · exact ((estimate_eval ((((180 : Int) : ℚ)) / 60) 15 45 (by norm_num)).1).trans (by norm_num)
  · exact ((estimate_eval ((((180 : Int) : ℚ)) / 60) 25 75 (by norm_num)).1).trans (by norm_num)
  · exact (estimate_eval ((((180 : Int) : ℚ)) / 60) 5 15 (by norm_num)).2
  · exact (estimate_eval ((((180 : Int) : ℚ)) / 60) 8 24 (by norm_num)).2
  · exact (estimate_eval ((((180 : Int) : ℚ)) / 60) 15 45 (by norm_num)).2
  · exact (estimate_eval ((((180 : Int) : ℚ)) / 60) 25 75 (by norm_num)).2

/-- C7: a `/download` request with `videoId` missing yields 400 with no
collaborator call made, and leaves the registry (and filesystem)
unchanged. -/
theorem missing_videoId_400 (qualityArg : Option Path) (ts : Path)
    (extractedTitle : Option Path) (dl : DlOutcome) (now : Int) (reg : Finset Path)
    (fs : FsT) :
    (downloadHandler none qualityArg ts extractedTitle dl now reg fs).status = 400 ∧
    (downloadHandler none qualityArg ts extractedTitle dl now reg fs).calls = [] ∧
    (downloadHandler none qualityArg ts extractedTitle dl now reg fs).registry = reg ∧
    (downloadHandler none qualityArg ts extractedTitle dl now reg fs).fs = fs :=
  ⟨rfl, rfl, rfl, rfl⟩

/-- C8: registry registration and unregistration are idempotent;
unregistering an untracked path is a no-op; and the delayed-cleanup
discard removes the path from the tracked set regardless of the
filesystem state.  All operations are total. -/
theorem registry_idempotent (s : Finset Path) (p : Path) :
    (p ∈ s → registerPath s p = s) ∧
    registerPath (registerPath s p) p = registerPath s p ∧
    (p ∉ s → unregisterPath s p = s) ∧
    unregisterPath (unregisterPath s p) p = unregisterPath s p ∧
    (∀ fs fs2 : FsT, (delayedCleanup fs s p).2 = (delayedCleanup fs2 s p).2) ∧
    (∀ fs : FsT, (delayedCleanup fs s p).2 = unregisterPath s p) := by
  refine ⟨fun h => Finset.insert_eq_self.mpr h, Finset.insert_idem p s,
    fun h => Finset.erase_eq_self.mpr h, Finset.erase_idem,
    fun _ _ => rfl, fun _ => rfl⟩

/-- Witness for C8 on concrete one-element registries. -/
theorem registry_idempotent_witness :
    registerPath {("a".toList : Path)} ("a".toList) = {("a".toList : Path)} ∧
    unregisterPath {("a".toList : Path)} ("b".toList) = {("a".toList : Path)} ∧
    registerPath (registerPath ∅ ("a".toList)) ("a".toList) = registerPath ∅ ("a".toList) :=
  ⟨(registry_idempotent {("a".toList : Path)} ("a".toList)).1 (by decide),
   (registry_idempotent {("a".toList : Path)} ("b".toList)).2.2.1 (by decide),
   (registry_idempotent ∅ ("a".toList)).2.1⟩

/-- C9: the `/download` handler registers exactly
`os.path.join(TEMP_DIR, f"{title}_{quality}_{timestamp}.mp4")` built from
the raw query-string quality, and there is a quality value containing path
separators and parent-directory components whose computed output path
normalizes to a location outside the temp directory. -/
theorem raw_quality_escapes_temp_dir :
    (∀ (q : Path) (extractedTitle : Option Path) (ts : Path) (dl : DlOutcome) (now : Int)
        (reg : Finset Path) (fs : FsT),
      (downloadHandler (some ("abc".toList)) (some q) ts extractedTitle dl now reg fs).registry
        = registerPath reg (output_file (downloadTitle extractedTitle ("abc".toList)) q ts)) ∧
    (∃ q : Path, '/' ∈ q ∧
      underTempDir (output_file ("Title".toList) q ("20240101_000000".toList)) = false) := by
  constructor
  · intro q extractedTitle ts dl now reg fs
    cases dl with
    | raises => rfl
    | noFile => rfl
    | writes size =>
      by_cases hz : size = 0
      · subst hz
        rfl
      · simp only [downloadHandler, if_neg hz]
        rw [if_neg (by decide : ¬("abc".toList : Path) = [])]
        rfl
  · exact ⟨"../../../../etc/x".toList, by decide, by decide⟩

/-- C10: when the metadata result has no duration, `/video-info` reports
duration 0 while the size estimates are computed from the 180-second
default (15.0 / 24.0 / 45.0 / 75.0 MB) — two different duration values. -/
theorem video_info_missing_duration :
    (videoInfoResponse none).duration = 0 ∧
    (videoInfoResponse none).q360.size_mb = 15 ∧
    (videoInfoResponse none).q480.size_mb = 24 ∧
    (videoInfoResponse none).q720.size_mb = 45 ∧
    (videoInfoResponse none).q1080.size_mb = 75 := by
  refine ⟨rfl, ?_, ?_, ?_, ?_⟩
  · exact ((estimate_eval ((((180 : Int) : ℚ)) / 60) 5 15 (by norm_num)).1).trans (by norm_num)
  · exact ((estimate_eval ((((180 : Int) : ℚ)) / 60) 8 24 (by norm_num)).1).trans (by norm_num)
  · exact ((estimate_eval ((((180 : Int) : ℚ)) / 60) 15 45 (by norm_num)).1).trans (by norm_num)
  · exact ((estimate_eval ((((180 : Int) : ℚ)) / 60) 25 75 (by norm_num)).1).trans (by norm_num)

end YtSaver
